import Mathlib

set_option maxHeartbeats 1000000

/-!
Verification development for the job-tracker repository (src/job_tracker.py and
src/streamlit_app.py), as a shallow embedding in Lean 4.

Conventions of the embedding:
* Python strings are Lean `String`s; all character-level operations are defined
  over `String.data : List Char` so that everything reduces in the kernel.
* Python dicts (which preserve insertion order and update values in place) are
  association lists `List (String × _)` with an update-or-append `set` operation.
* Network I/O is made explicit: a scrape receives the fetched page (or the
  raised transport error) as an `Except` argument; `datetime.now()` values are
  threaded as an opaque `now : String` parameter.
* JSON files on disk are modelled at the parsed-value level: a file either is
  absent (`none`) or holds the structured mapping that `json.load` would return.
-/

/-! ## Character-list string utilities (models of Python str operations) -/

/-- Whether the first list is a prefix of the second, by character equality. -/
def charsHavePre : List Char → List Char → Bool
  | [], _ => true
  | _ :: _, [] => false
  | a :: as, b :: bs => a = b && charsHavePre as bs

/-- Helper for `isSubstring`: does `needle` occur anywhere in the haystack list? -/
def charsHaveSub (needle : List Char) : List Char → Bool
  | [] => needle.isEmpty
  | c :: rest => charsHavePre needle (c :: rest) || charsHaveSub needle rest

/-- Model of Python `needle in hay` on strings: substring containment. -/
def isSubstring (needle hay : String) : Bool :=
  charsHaveSub needle.data hay.data

/-- Model of Python `str.lower()` (ASCII letters, which is all the code relies on). -/
def strLower (s : String) : String :=
  String.mk (s.data.map Char.toLower)

/-- Model of Python `str.strip()`: drop leading and trailing whitespace. -/
def strTrim (s : String) : String :=
  String.mk (((s.data.dropWhile Char.isWhitespace).reverse.dropWhile Char.isWhitespace).reverse)

/-- Model of Python `str.startswith(p)`. -/
def strHasPre (p s : String) : Bool :=
  charsHavePre p.data s.data

/-- Model of Python `str.split('\n')`: split on each newline character. -/
def splitLinesAux : List Char → List Char → List String
  | [], acc => [String.mk acc.reverse]
  | c :: cs, acc =>
    if c = '\n' then String.mk acc.reverse :: splitLinesAux cs []
    else splitLinesAux cs (c :: acc)

/-- Model of Python `email_body.split('\n')`. -/
def splitLines (s : String) : List String :=
  splitLinesAux s.data []

/-- Boolean membership of a string in a list of strings (Python `in` on a set
or list of titles/keys). -/
def memStr (t : String) : List String → Bool
  | [] => false
  | s :: rest => t = s || memStr t rest

/-- Model of Python `url.rstrip('.,;)')`: drop trailing characters from that set. -/
def rstripUrl (s : String) : String :=
  String.mk ((s.data.reverse.dropWhile (fun c => c = '.' ∨ c = ',' ∨ c = ';' ∨ c = ')')).reverse)

/-! ## urljoin (model of `urllib.parse.urljoin`, for the shapes the code uses)

The code only calls `urljoin(base, u)` with `u` starting with `'/'`.  For such
arguments Python's result is: scheme-relative `"//host/p"` keeps the base's
scheme; a rooted path replaces everything after the base's authority. -/

/-- Split a character list at the first occurrence of `"://"`, returning the
scheme part and what follows. -/
def findSchemeSplit : List Char → Option (List Char × List Char)
  | [] => none
  | c :: cs =>
    if charsHavePre [':', '/', '/'] (c :: cs) then some ([], cs.drop 2)
    else
      match findSchemeSplit cs with
      | some (pre, post) => some (c :: pre, post)
      | none => none

/-- Model of `urllib.parse.urljoin base url` for `url` beginning with `'/'`:
keep the base's scheme and network location (authority). -/
def urljoin (base url : String) : String :=
  match findSchemeSplit base.data with
  | some (scheme, rest) =>
    if scheme.isEmpty then url
    else
      let netloc := rest.takeWhile (fun c => ¬(c = '/' ∨ c = '?' ∨ c = '#'))
      if charsHavePre ['/', '/'] url.data then String.mk (scheme ++ [':']) ++ url
      else String.mk (scheme ++ [':', '/', '/'] ++ netloc) ++ url
  | none => url

/-! ## Role Filter (`JobTracker.should_exclude_role`, src/job_tracker.py:312-321) -/

/-- The fixed exclusion keyword list from `should_exclude_role`. -/
def exclude_keywords : List String :=
  ["engineer", "engineering", "developer", "software", "frontend",
   "backend", "full stack", "devops", "sre", "legal", "counsel",
   "attorney", "lawyer", "paralegal"]

/-- Model of `JobTracker.should_exclude_role`: case-insensitive substring match
of the title against the fixed exclusion keyword list. -/
def should_exclude_role (job_title : String) : Bool :=
  let job_lower := strLower job_title
  exclude_keywords.any (fun keyword => isSubstring keyword job_lower)

/-! ## Page Scraper (`JobTracker.scrape_job_page`, src/job_tracker.py:225-310) -/

/-- One job posting record as built by `scrape_job_page`. -/
structure Job where
  title : String
  url : String
  company : String
  scraped_date : String
deriving DecidableEq

/-- What the code reads off one matched HTML element: its tag name
(`element.name`), its own `href` attribute if any (`element.get('href')`),
the `href` attribute of its first descendant `<a>` if such a descendant
exists (`element.find('a')`), and its stripped visible text
(`element.get_text(strip=True)`). -/
structure Element where
  tag : String
  attr_href : Option String
  first_link_href : Option (Option String)
  text : String
deriving DecidableEq

/-- A fetched page, characterized by what `soup.select` returns for each CSS
selector. -/
structure Page where
  select : String → List Element

/-- The selector catalog `job_selectors` from `scrape_job_page`, in source order. -/
def job_selectors : List String :=
  [".opening", ".opening-title", "[data-test=\"job-title\"]",
   ".posting-title", ".posting", "[data-automation-id*=\"job\"]",
   ".BambooHR-ATS-Jobs-Item", ".job-title", ".job-listing",
   ".position", ".role", "h3 a[href*=\"job\"]",
   "a[href*=\"position\"]", "a[href*=\"career\"]"]

/-- The raw job URL extracted from an element: its own `href` when the element
is an `<a>`, else the first descendant link's `href`, else the empty string. -/
def jobUrlOf (element : Element) : String :=
  if element.tag = "a" then (element.attr_href).getD ""
  else
    match element.first_link_href with
    | some h => h.getD ""
    | none => ""

/-- Per-element body of the scrape loop: drop excluded roles, drop empty or
too-short titles, extract the link and absolutize rooted paths, build the
posting. Returns `none` when the element contributes no posting. -/
def processElement (url company_name now : String) (element : Element) : Option Job :=
  let job_title := element.text
  if should_exclude_role job_title then none
  else if job_title ≠ "" ∧ job_title.data.length > 3 then
    let raw_url := jobUrlOf element
    let job_url := if strHasPre "/" raw_url then urljoin url raw_url else raw_url
    some { title := job_title, url := job_url, company := company_name, scraped_date := now }
  else none

/-- All postings contributed by one selector's matched elements. -/
def selectorJobs (url company_name now : String) (elements : List Element) : List Job :=
  elements.filterMap (processElement url company_name now)

/-- The selector loop of `scrape_job_page`: process each selector's elements
into the accumulated `jobs` list, and stop (`if jobs: break`) as soon as the
list is non-empty. -/
def scrapeSelectors (url company_name now : String) (page : Page) :
    List String → List Job → List Job
  | [], jobs => jobs
  | selector :: rest, jobs =>
    let jobs := jobs ++ selectorJobs url company_name now (page.select selector)
    if jobs.isEmpty then scrapeSelectors url company_name now page rest jobs
    else jobs

/-- The dedup pass of `scrape_job_page`: walk the list keeping a `seen_titles`
set, appending only first occurrences of each title. -/
def dedupAux : List Job → List String → List Job
  | [], _ => []
  | job :: rest, seen_titles =>
    if memStr job.title seen_titles then dedupAux rest seen_titles
    else job :: dedupAux rest (job.title :: seen_titles)

/-- Model of `JobTracker.scrape_job_page`.  The network is explicit: `fetch`
is the parsed page on success, or the raised transport/HTTP/parse error.  An
empty URL returns `[]` before the fetch is even consulted; any error returns
`[]`; otherwise the selector loop runs, duplicates by title are removed, and
the result is capped at 20 postings. -/
def scrape_job_page (url company_name now : String) (fetch : Except String Page) : List Job :=
  if url = "" then []
  else
    match fetch with
    | Except.error _ => []
    | Except.ok page =>
      let jobs := scrapeSelectors url company_name now page job_selectors []
      let unique_jobs := dedupAux jobs []
      unique_jobs.take 20

/-! ## Careers-Page Finder (`JobTracker.find_careers_page`, src/job_tracker.py:358-381) -/

/-- An anchor with an `href` attribute, as returned by
`soup.find_all('a', href=True)`: its `href` value and its visible text. -/
structure CAnchor where
  href : String
  text : String
deriving DecidableEq

/-- The career-related words the finder looks for in an anchor's href or text. -/
def careers_words : List String := ["career", "job", "hiring", "work"]

/-- Per-anchor body of `find_careers_page`: an anchor qualifies when its
lowercased href or lowercased text contains a careers word; its href is
absolutized when it starts with `'/'`. -/
def careersCandidate (website_url : String) (link : CAnchor) : Option String :=
  let href := strLower link.href
  let text := strLower link.text
  if careers_words.any (fun word => isSubstring word href || isSubstring word text) then
    some (if strHasPre "/" link.href then urljoin website_url link.href else link.href)
  else none

/-- Model of `JobTracker.find_careers_page`: on fetch failure return `[]`;
otherwise collect qualifying anchors in document order and keep the first 3. -/
def find_careers_page (website_url : String) (fetch : Except String (List CAnchor)) :
    List String :=
  match fetch with
  | Except.error _ => []
  | Except.ok links =>
    (links.filterMap (careersCandidate website_url)).take 3

/-! ## Snapshot store and diff (`JobTracker.check_for_new_jobs`, src/job_tracker.py:343-353) -/

/-- Lookup in an insertion-ordered string-keyed map (`dict.get`). -/
def storeGet (store : List (String × List Job)) (key : String) : Option (List Job) :=
  match store with
  | [] => none
  | (k, v) :: rest => if k = key then some v else storeGet rest key

/-- Model of `d[key] = value` on a Python dict: update in place when the key
exists, else append at the end. -/
def storeSet (store : List (String × List Job)) (key : String) (value : List Job) :
    List (String × List Job) :=
  match store with
  | [] => [(key, value)]
  | (k, v) :: rest =>
    if k = key then (k, value) :: rest else (k, v) :: storeSet rest key value

/-- The diff-and-store step of `check_for_new_jobs` for one company key
(src/job_tracker.py:343-353): the stored snapshot's titles form the reference
set; every current posting whose title is not among them is reported new; the
snapshot for the key is then replaced by the full current list.  Returns the
new postings together with the updated store. -/
def check_for_new_jobs_diff (previous_store : List (String × List Job))
    (company_key : String) (jobs_from_page : List Job) :
    List Job × List (String × List Job) :=
  let previous_jobs := (storeGet previous_store company_key).getD []
  let previous_titles := previous_jobs.map Job.title
  let new_jobs := jobs_from_page.filter (fun job => !(memStr job.title previous_titles))
  (new_jobs, storeSet previous_store company_key jobs_from_page)

/-! ## Durable state (`JobTracker.load_data` / `save_data`, src/job_tracker.py:26-45)

Files are modelled at the parsed-JSON-value level: a file either is absent
(`FileNotFoundError`) or holds the structured mapping that `json.load` returns;
`json.dump`/`json.load` of the Python standard library are modelled as storing
and retrieving that mapping. -/

/-- A tracked company record as stored in `companies.json`. -/
structure CompanyInfo where
  website : String
  jobs_page : String
  date_added : String
deriving DecidableEq

/-- The two JSON documents on disk; `none` models an absent file. -/
structure FileSystem where
  companies_file : Option (List (String × CompanyInfo))
  jobs_file : Option (List (String × List Job))
deriving DecidableEq

/-- Model of `JobTracker.load_data`: read each mapping from its file, and
treat an absent file (`FileNotFoundError`) as the empty mapping. -/
def load_data (fs : FileSystem) : List (String × CompanyInfo) × List (String × List Job) :=
  (match fs.companies_file with
   | some companies => companies
   | none => [],
   match fs.jobs_file with
   | some previous_jobs => previous_jobs
   | none => [])

/-- Model of `JobTracker.save_data`: write both mappings to their files,
truncating whatever was there. -/
def save_data (companies : List (String × CompanyInfo))
    (previous_jobs : List (String × List Job)) (_fs : FileSystem) : FileSystem :=
  { companies_file := some companies, jobs_file := some previous_jobs }

/-! ## Email Parser, structured form
(`JobTracker.parse_funded_hiring_email`, src/job_tracker.py:146-206) -/

/-- Lookup in the insertion-ordered company map built during one parse call. -/
def companyLookup (companies : List (String × CompanyInfo)) (name : String) :
    Option CompanyInfo :=
  match companies with
  | [] => none
  | (k, v) :: rest => if k = name then some v else companyLookup rest name

/-- Model of `companies[name] = info` on a Python dict: update in place when
present, else append. -/
def setCompany (companies : List (String × CompanyInfo)) (name : String)
    (info : CompanyInfo) : List (String × CompanyInfo) :=
  match companies with
  | [] => [(name, info)]
  | (k, v) :: rest =>
    if k = name then (k, info) :: rest else (k, v) :: setCompany rest name info

/-- Model of `companies[name]['website'] = url`. -/
def setWebsite (companies : List (String × CompanyInfo)) (name url : String) :
    List (String × CompanyInfo) :=
  match companies with
  | [] => []
  | (k, v) :: rest =>
    if k = name then (k, { v with website := url }) :: rest
    else (k, v) :: setWebsite rest name url

/-- Model of `companies[name]['jobs_page'] = url`. -/
def setJobsPage (companies : List (String × CompanyInfo)) (name url : String) :
    List (String × CompanyInfo) :=
  match companies with
  | [] => []
  | (k, v) :: rest =>
    if k = name then (k, { v with jobs_page := url }) :: rest
    else (k, v) :: setJobsPage rest name url

/-- Whether a key is present (`name in companies`). -/
def hasCompany (companies : List (String × CompanyInfo)) (name : String) : Bool :=
  match companies with
  | [] => false
  | (k, _) :: rest => k = name || hasCompany rest name

/-- The website currently recorded for a key, empty when absent. -/
def websiteOf (companies : List (String × CompanyInfo)) (name : String) : String :=
  match companyLookup companies name with
  | some info => info.website
  | none => ""

/-- Newsletter boilerplate markers that make the structured parser skip a line. -/
def skip_line_words : List String :=
  ["funded & hiring", "biweekly newsletter", "subscribe", "forwarded",
   "startup funding", "job alerts", "stay up to date", "sunday"]

/-- Tracking/newsletter-infrastructure substrings that disqualify a URL. -/
def url_skip_words : List String :=
  ["subscribe", "unsubscribe", "track", "utm_", "mailchi",
   "email", "newsletter", "substack"]

/-- Model of `re.sub(r'^[•\-\*\s]+', '', s)` followed by
`re.sub(r'\s+$', '', s)`: strip leading bullet/dash/star/whitespace
decorations and trailing whitespace. -/
def stripDecorations (s : String) : String :=
  let dropped := s.data.dropWhile (fun c => c = '•' ∨ c = '-' ∨ c = '*' ∨ c.isWhitespace)
  String.mk ((dropped.reverse.dropWhile Char.isWhitespace).reverse)

/-- Characters allowed inside a URL match of `r'https?://[^\s\)]+'`. -/
def urlCharJT (c : Char) : Bool :=
  !c.isWhitespace && c ≠ ')'

/-- Characters allowed inside a URL match of `r'https?://[^\s]+'`. -/
def urlCharApp (c : Char) : Bool :=
  !c.isWhitespace

/-- Model of `re.findall(r'https?://[^…]+', line)` over a character list:
scan left to right, and at each position where `http://` or `https://` begins
and at least one allowed character follows, emit the maximal match and resume
after it.  The `fuel` argument only makes the recursion structural; each step
shortens the scanned list by at least one character, so a scan started with
`fuel` equal to the list's length never runs out. -/
def findUrlsAux (allowed : Char → Bool) : Nat → List Char → List (List Char)
  | 0, _ => []
  | _, [] => []
  | fuel + 1, c :: cs =>
    if charsHavePre "https://".data (c :: cs) then
      let tail := (c :: cs).drop 8
      let run := tail.takeWhile allowed
      if run.isEmpty then findUrlsAux allowed fuel cs
      else ("https://".data ++ run) :: findUrlsAux allowed fuel (tail.drop run.length)
    else if charsHavePre "http://".data (c :: cs) then
      let tail := (c :: cs).drop 7
      let run := tail.takeWhile allowed
      if run.isEmpty then findUrlsAux allowed fuel cs
      else ("http://".data ++ run) :: findUrlsAux allowed fuel (tail.drop run.length)
    else findUrlsAux allowed fuel cs

/-- URL matches of a line under the structured parser's regex
`r'https?://[^\s\)]+'`. -/
def findUrlsJT (line : String) : List String :=
  (findUrlsAux urlCharJT line.data.length line.data).map String.mk

/-- URL matches of a line under the dashboard parser's regex
`r'https?://[^\s]+'`. -/
def findUrlsApp (line : String) : List String :=
  (findUrlsAux urlCharApp line.data.length line.data).map String.mk

/-- URL-assignment pass of the structured parser for one line: each URL found
on the line is cleaned, dropped when it contains a tracking substring, and
otherwise recorded as the current company's website — but only when that
company has no website yet. -/
def assignUrlsJT (line : String) (current_company : Option String)
    (companies : List (String × CompanyInfo)) : List (String × CompanyInfo) :=
  (findUrlsJT line).foldl
    (fun cs u =>
      let url := rstripUrl u
      if url_skip_words.any (fun w => isSubstring w (strLower url)) then cs
      else
        match current_company with
        | some cc =>
          if cc ≠ "" ∧ hasCompany cs cc then
            if websiteOf cs cc = "" then setWebsite cs cc url else cs
          else cs
        | none => cs)
    companies

/-- The line loop of `JobTracker.parse_funded_hiring_email`: skip blank and
boilerplate lines; when the next raw line (stripped) starts with
`"Funding Amount:"`, the current line is a company name — cleaned of
decorations and length-checked — and its entry is set to a fresh blank record;
then URLs on the line are assigned to the current company. -/
def parseLinesJT (now : String) :
    List String → Option String → List (String × CompanyInfo) →
    List (String × CompanyInfo)
  | [], _, companies => companies
  | raw :: rest, current_company, companies =>
    let line := strTrim raw
    if line = "" ∨ skip_line_words.any (fun w => isSubstring w (strLower line)) then
      parseLinesJT now rest current_company companies
    else
      let next_line := match rest with
        | [] => ""
        | r :: _ => strTrim r
      let step :=
        if strHasPre "Funding Amount:" next_line ∧ line ≠ "" then
          let company_name := stripDecorations (strTrim line)
          if company_name ≠ "" ∧ company_name.data.length < 100 then
            (some company_name,
             setCompany companies company_name
               { website := "", jobs_page := "", date_added := now })
          else (current_company, companies)
        else (current_company, companies)
      parseLinesJT now rest step.1 (assignUrlsJT line step.1 step.2)

/-- Model of `JobTracker.parse_funded_hiring_email` (the structured
`"Funding Amount:"` grammar); `now` stands for `datetime.now().isoformat()`. -/
def parse_funded_hiring_email (now email_body : String) : List (String × CompanyInfo) :=
  parseLinesJT now (splitLines email_body) none []

/-! ## Email Parser, free-form dashboard variant
(`parse_funded_hiring_email`, src/streamlit_app.py:36-68) -/

namespace StreamlitApp

/-- Link-marker line starts that disqualify a line as a company name. -/
def company_line_marks : List String := ["http", "www", "Website:", "Jobs:", "Careers:"]

/-- Stop-words that disqualify a line as a company name. -/
def stop_words : List String := ["the", "and", "funded", "hiring"]

/-- Words that make a URL line count as a jobs-page link. -/
def jobs_line_words : List String := ["job", "career", "hiring"]

/-- Model of `re.split(r'\s*[-–—]\s*', line)[0].strip()`: the text before the
first dash-like separator, trimmed. -/
def firstDashName (line : String) : String :=
  strTrim (String.mk (line.data.takeWhile (fun c => ¬(c = '-' ∨ c = '–' ∨ c = '—'))))

/-- URL-assignment pass of the free-form parser for one line: each URL found
is cleaned; when the line mentions job/career/hiring it becomes the current
company's jobs page (last wins), otherwise the first URL becomes the website. -/
def assignUrlsApp (line : String) (cc : String)
    (companies : List (String × CompanyInfo)) : List (String × CompanyInfo) :=
  (findUrlsApp line).foldl
    (fun cs u =>
      let url := rstripUrl u
      if jobs_line_words.any (fun w => isSubstring w (strLower line)) then
        setJobsPage cs cc url
      else if websiteOf cs cc = "" then setWebsite cs cc url
      else cs)
    companies

/-- The line loop of the dashboard's `parse_funded_hiring_email`: a non-empty
line not starting with a link marker and free of stop-words names a company
(text before the first dash); otherwise, when a current company exists and the
line mentions http/www, its URLs are attributed to that company. -/
def parseLinesApp (now : String) :
    List String → Option String → List (String × CompanyInfo) →
    List (String × CompanyInfo)
  | [], _, companies => companies
  | raw :: rest, current_company, companies =>
    let line := strTrim raw
    if line ≠ "" ∧ ¬ company_line_marks.any (fun p => strHasPre p line) then
      if line.data.length < 100 ∧ ¬ stop_words.any (fun w => isSubstring w (strLower line)) then
        let company_name := firstDashName line
        if company_name ≠ "" then
          parseLinesApp now rest (some company_name)
            (setCompany companies company_name
              { website := "", jobs_page := "", date_added := now })
        else parseLinesApp now rest current_company companies
      else parseLinesApp now rest current_company companies
    else
      match current_company with
      | some cc =>
        if isSubstring "http" line ∨ isSubstring "www" line then
          parseLinesApp now rest current_company (assignUrlsApp line cc companies)
        else parseLinesApp now rest current_company companies
      | none => parseLinesApp now rest current_company companies

/-- Model of the dashboard's `parse_funded_hiring_email` (the free-form
newsletter grammar). -/
def parse_funded_hiring_email (now email_body : String) : List (String × CompanyInfo) :=
  parseLinesApp now (splitLines email_body) none []

end StreamlitApp

/-! ## Concrete pages, postings and email bodies used in the claim theorems -/

/-- A plain (non-anchor) element carrying only a title text. -/
def mkEl (t : String) : Element :=
  { tag := "div", attr_href := none, first_link_href := none, text := t }

/-- The posting that `scrape_job_page` builds from `mkEl "Sales Manager"` on a
page at any URL, with company `"Co"` and timestamp `"T"`. -/
def exSalesJob : Job :=
  { title := "Sales Manager", url := "", company := "Co", scraped_date := "T" }

/-- A page whose first catalog selector matches 25 elements with distinct
retained titles. -/
def exPage25 : Page :=
  ⟨fun s =>
    if s = ".opening" then
      [mkEl "Sales Role Alpha", mkEl "Sales Role Bravo", mkEl "Sales Role Charlie",
       mkEl "Sales Role Delta", mkEl "Sales Role Echo", mkEl "Sales Role Foxtrot",
       mkEl "Sales Role Golf", mkEl "Sales Role Hotel", mkEl "Sales Role India",
       mkEl "Sales Role Juliett", mkEl "Sales Role Kilo", mkEl "Sales Role Lima",
       mkEl "Sales Role Mike", mkEl "Sales Role November", mkEl "Sales Role Oscar",
       mkEl "Sales Role Papa", mkEl "Sales Role Quebec", mkEl "Sales Role Romeo",
       mkEl "Sales Role Sierra", mkEl "Sales Role Tango", mkEl "Sales Role Uniform",
       mkEl "Sales Role Victor", mkEl "Sales Role Whiskey", mkEl "Sales Role Xray",
       mkEl "Sales Role Yankee"]
    else []⟩

/-- A page whose first catalog selector matches two elements with the same
extracted title. -/
def exPageDup : Page :=
  ⟨fun s => if s = ".opening" then [mkEl "Sales Manager", mkEl "Sales Manager"] else []⟩

/-- A page where the first catalog selector matches one element, but that
element's title is rejected by the Role Filter; the second selector matches a
retained title. -/
def exPageMixed : Page :=
  ⟨fun s =>
    if s = ".opening" then [mkEl "Software Engineer"]
    else if s = ".opening-title" then [mkEl "Sales Manager"]
    else []⟩

/-- A page whose first selector matches a too-short title (`"VP"`) followed by
a retained one. -/
def exPageVP : Page :=
  ⟨fun s => if s = ".opening" then [mkEl "VP", mkEl "Sales Manager"] else []⟩

/-- An anchor element whose `href` is a scheme-less relative path that does
not start with `'/'`. -/
def exElRel : Element :=
  { tag := "a", attr_href := some "jobs/123", first_link_href := none, text := "Sales Manager" }

/-- A page whose first selector matches `exElRel`. -/
def exPageRel : Page :=
  ⟨fun s => if s = ".opening" then [exElRel] else []⟩

/-- An anchor element whose `href` is a rooted path. -/
def exElRoot : Element :=
  { tag := "a", attr_href := some "/careers/1", first_link_href := none, text := "Sales Manager" }

/-- A homepage anchor with a rooted careers href. -/
def exCAnchor : CAnchor := { href := "/careers", text := "Open roles" }

/-- Stored postings used in the diff examples: `"Role A"`, `"Role B"` as
previously snapshotted, `"Role B"`, `"Role C"` as currently scraped. -/
def exJobRoleA : Job := { title := "Role A", url := "", company := "Acme", scraped_date := "T0" }

/-- Previously snapshotted posting with title `"Role B"`. -/
def exJobRoleB : Job := { title := "Role B", url := "", company := "Acme", scraped_date := "T0" }

/-- Currently scraped posting with title `"Role B"`. -/
def exJobRoleB1 : Job := { title := "Role B", url := "", company := "Acme", scraped_date := "T1" }

/-- Currently scraped posting with title `"Role C"`. -/
def exJobRoleC : Job := { title := "Role C", url := "", company := "Acme", scraped_date := "T1" }

/-- Structured email in which the company name `"Acme"` occurs twice, each
time followed by a `"Funding Amount:"` line, with its website URL in between. -/
def exBodyJT : String :=
  "Acme\nFunding Amount: $10M\nhttps://acme.example.com\nAcme\nFunding Amount: $5M"

/-- The prefix of `exBodyJT` up to and including the website URL line. -/
def exBodyJTshort : String :=
  "Acme\nFunding Amount: $10M\nhttps://acme.example.com"

/-- Free-form email in which the company-name line `"Acme Robotics - …"`
occurs twice, with its website URL in between. -/
def exBodyApp : String :=
  "Acme Robotics - builds robots\nWebsite: https://acme.example.com\nAcme Robotics - second mention"

/-- The prefix of `exBodyApp` up to and including the website URL line. -/
def exBodyAppShort : String :=
  "Acme Robotics - builds robots\nWebsite: https://acme.example.com"

/-! ## Specification-side definition for the dedup claim -/

/-- Modelled from the spec's words for the dedup contract ("dedup by exact
title match, preserving first-seen order"): keep each first occurrence and
drop every later posting with the same title.  This is the reference against
which the code's `dedupAux` accumulator loop is compared. -/
def keepFirstByTitle : List Job → List Job
  | [] => []
  | job :: rest => job :: keepFirstByTitle (rest.filter (fun j => !(j.title = job.title)))
  termination_by l => l.length
  decreasing_by
    simp only [List.length_cons]
    exact Nat.lt_succ_of_le (List.length_filter_le _ _)

/-! ## Helper lemmas -/

theorem memStr_iff (t : String) (l : List String) : memStr t l = true ↔ t ∈ l := by
  induction l with
  | nil => simp [memStr]
  | cons s rest ih => simp [memStr, ih]

theorem storeGet_storeSet (store : List (String × List Job)) (key : String)
    (value : List Job) : storeGet (storeSet store key value) key = some value := by
  induction store with
  | nil => simp [storeSet, storeGet]
  | cons kv rest ih =>
    by_cases h : kv.1 = key
    · simp [storeSet, storeGet, h]
    · simp [storeSet, storeGet, h, ih]

/-! ## C1 -/

/-- C1: for every company key and current posting list, the diff-and-store
step of `check_for_new_jobs` reports as new exactly the current postings whose
title is not among the stored snapshot's titles, and replaces the stored
snapshot for that key with the full current list; concretely, prior titles
`Role A`, `Role B` against current `Role B`, `Role C` yields new `Role C` and
stored snapshot `Role B`, `Role C`. -/
theorem c1_diff_reports_new_and_replaces :
    (∀ (store : List (String × List Job)) (key : String) (current : List Job),
      (check_for_new_jobs_diff store key current).1 =
        current.filter
          (fun job => !(memStr job.title (((storeGet store key).getD []).map Job.title))) ∧
      storeGet (check_for_new_jobs_diff store key current).2 key = some current) ∧
    (check_for_new_jobs_diff [("acme", [exJobRoleA, exJobRoleB])] "acme"
        [exJobRoleB1, exJobRoleC]).1 = [exJobRoleC] ∧
    storeGet (check_for_new_jobs_diff [("acme", [exJobRoleA, exJobRoleB])] "acme"
        [exJobRoleB1, exJobRoleC]).2 "acme" = some [exJobRoleB1, exJobRoleC] := by
  refine ⟨fun store key current => ⟨rfl, storeGet_storeSet _ _ _⟩, by decide, by decide⟩

/-! ## C6 -/

/-- C6: running the diff-and-store step once with a list and then again with a
list having the same titles produces an empty delta on the second run. -/
theorem c6_second_run_empty (store : List (String × List Job)) (key : String)
    (l1 l2 : List Job) (h : l2.map Job.title = l1.map Job.title) :
    (check_for_new_jobs_diff (check_for_new_jobs_diff store key l1).2 key l2).1 = [] := by
  have hget : storeGet (check_for_new_jobs_diff store key l1).2 key = some l1 :=
    storeGet_storeSet _ _ _
  show l2.filter _ = []
  rw [List.filter_eq_nil_iff]
  intro job hj
  rw [hget]
  simp only [Option.getD_some, Bool.not_eq_true', Bool.not_eq_false]
  exact (memStr_iff _ _).mpr (h ▸ List.mem_map_of_mem Job.title hj)

theorem c6_second_run_empty_witness :
    [exJobRoleB1].map Job.title = [exJobRoleB].map Job.title ∧
    (check_for_new_jobs_diff (check_for_new_jobs_diff [] "acme" [exJobRoleB]).2 "acme"
        [exJobRoleB1]).1 = [] :=
  ⟨by decide, c6_second_run_empty [] "acme" [exJobRoleB] [exJobRoleB1] (by decide)⟩

/-! ## C5 -/

/-- C5: `should_exclude_role` is case-insensitive substring matching against
the fixed exclusion keyword list, regardless of word boundaries; the spec's
example titles behave as stated. -/
theorem c5_role_filter :
    (∀ job_title : String,
      should_exclude_role job_title = true ↔
        ∃ keyword, keyword ∈ exclude_keywords ∧
          isSubstring keyword (strLower job_title) = true) ∧
    should_exclude_role "Software Engineer" = true ∧
    should_exclude_role "Senior DevOps Engineer" = true ∧
    should_exclude_role "Legal Counsel" = true ∧
    should_exclude_role "Paralegal" = true ∧
    should_exclude_role "Sales Manager" = false ∧
    should_exclude_role "Customer Success Lead" = false ∧
    should_exclude_role "SoftwareEngineering" = true ∧
    should_exclude_role "Paralegalism" = true := by
  refine ⟨fun job_title => ?_, by decide, by decide, by decide, by decide,
    by decide, by decide, by decide, by decide⟩
  simp [should_exclude_role, List.any_eq_true]

/-! ## C8 -/

/-- C8: an empty URL yields the empty list no matter what the network would
have returned, and any transport, HTTP-status or parse error caught inside
`scrape_job_page` yields the empty list instead of propagating. -/
theorem c8_error_handling :
    (∀ (company_name now : String) (fetch : Except String Page),
      scrape_job_page "" company_name now fetch = []) ∧
    (∀ (url company_name now err : String),
      scrape_job_page url company_name now (Except.error err) = []) := by
  constructor
  · intro company_name now fetch; rfl
  · intro url company_name now err
    by_cases h : url = "" <;> simp [scrape_job_page, h]

/-! ## C9 -/

/-- C9: saving both mappings with `save_data` and loading them back with
`load_data` yields exactly the saved data, and an absent file loads as the
empty mapping rather than an error. -/
theorem c9_roundtrip :
    (∀ (companies : List (String × CompanyInfo))
       (previous_jobs : List (String × List Job)) (fs : FileSystem),
      load_data (save_data companies previous_jobs fs) = (companies, previous_jobs)) ∧
    load_data { companies_file := none, jobs_file := none } = ([], []) ∧
    (∀ previous_jobs,
      load_data { companies_file := none, jobs_file := some previous_jobs } =
        ([], previous_jobs)) ∧
    (∀ companies,
      load_data { companies_file := some companies, jobs_file := none } = (companies, [])) :=
  ⟨fun _ _ _ => rfl, rfl, fun _ => rfl, fun _ => rfl⟩

/-! ## Lemmas about the scrape pipeline -/

theorem processElement_title_len {url company_name now : String} {e : Element} {job : Job}
    (h : processElement url company_name now e = some job) : 3 < job.title.data.length := by
  simp only [processElement] at h
  split at h
  · exact absurd h (by simp)
  · split at h
    · rename_i hcond
      cases h
      exact hcond.2
    · exact absurd h (by simp)

theorem mem_of_mem_dedupAux {l : List Job} {seen : List String} {j : Job}
    (h : j ∈ dedupAux l seen) : j ∈ l := by
  induction l generalizing seen with
  | nil => simp [dedupAux] at h
  | cons job rest ih =>
    by_cases hc : memStr job.title seen = true
    · simp only [dedupAux, hc, if_true] at h
      exact List.mem_cons_of_mem _ (ih h)
    · simp only [dedupAux, hc, Bool.false_eq_true, if_false, List.mem_cons] at h
      rcases h with h | h
      · exact h ▸ List.mem_cons_self _ _
      · exact List.mem_cons_of_mem _ (ih h)

theorem scrapeSelectors_title_len (url company_name now : String) (page : Page)
    (sels : List String) :
    ∀ init : List Job, (∀ j ∈ init, 3 < j.title.data.length) →
      ∀ j ∈ scrapeSelectors url company_name now page sels init, 3 < j.title.data.length := by
  induction sels with
  | nil =>
    intro init hinit j hj
    exact hinit j (by simpa [scrapeSelectors] using hj)
  | cons s rest ih =>
    intro init hinit j hj
    have hstep : ∀ x ∈ init ++ selectorJobs url company_name now (page.select s),
        3 < x.title.data.length := by
      intro x hx
      rcases List.mem_append.mp hx with hx | hx
      · exact hinit x hx
      · rcases List.mem_filterMap.mp hx with ⟨e, _, he⟩
        exact processElement_title_len he
    simp only [scrapeSelectors] at hj
    split at hj
    · exact ih _ hstep j hj
    · exact hstep j hj

/-! ## C10 -/

/-- C10: every posting returned by `scrape_job_page` has a title strictly
longer than 3 characters; an element whose extracted text is 3 characters or
shorter (such as `"VP"`) is silently dropped while longer titles on the same
page survive. -/
theorem c10_min_title_length :
    (∀ (url company_name now : String) (fetch : Except String Page) (job : Job),
      job ∈ scrape_job_page url company_name now fetch → 3 < job.title.length) ∧
    scrape_job_page "https://x.example/jobs" "Co" "T" (Except.ok exPageVP) = [exSalesJob] := by
  constructor
  · intro url company_name now fetch job hj
    by_cases hu : url = ""
    · simp [scrape_job_page, hu] at hj
    · cases fetch with
      | error e => simp [scrape_job_page, hu] at hj
      | ok page =>
        simp only [scrape_job_page, hu, if_false] at hj
        have h1 := List.mem_of_mem_take hj
        have h2 := mem_of_mem_dedupAux h1
        exact scrapeSelectors_title_len url company_name now page job_selectors []
          (by simp) job h2
  · decide

theorem c10_min_title_length_witness : 3 < exSalesJob.title.length :=
  c10_min_title_length.1 "https://x.example/jobs" "Co" "T" (Except.ok exPageVP) exSalesJob
    (by decide)

/-! ## C2 -/

theorem dedupAux_eq_keepFirst (l : List Job) :
    ∀ seen : List String,
      dedupAux l seen = keepFirstByTitle (l.filter (fun j => !(memStr j.title seen))) := by
  induction l with
  | nil => intro seen; simp [dedupAux, keepFirstByTitle]
  | cons job rest ih =>
    intro seen
    by_cases hc : memStr job.title seen = true
    · simp only [dedupAux, hc, if_true, List.filter_cons, Bool.not_true,
        Bool.false_eq_true, if_false]
      exact ih seen
    · simp only [dedupAux, hc, Bool.false_eq_true, if_false, List.filter_cons,
        Bool.not_false, if_true]
      rw [keepFirstByTitle, ih (job.title :: seen), List.filter_filter]
      congr 2
      apply List.filter_congr
      intro x _
      simp only [memStr, Bool.not_or]

/-- C2: the scraper deduplicates the surviving candidates by exact title,
keeping the first occurrence in selector/document order (the accumulator loop
coincides with the keep-first reference function), and caps the output at 20
postings; a page with 25 distinct retained candidates yields exactly 20, and
a page with two identically-titled elements yields exactly one posting for
that title. -/
theorem c2_dedup_and_cap :
    (∀ jobs : List Job, dedupAux jobs [] = keepFirstByTitle jobs) ∧
    (∀ (url company_name now : String) (fetch : Except String Page),
      (scrape_job_page url company_name now fetch).length ≤ 20) ∧
    (scrape_job_page "https://x.example/jobs" "Co" "T" (Except.ok exPage25)).length = 20 ∧
    scrape_job_page "https://x.example/jobs" "Co" "T" (Except.ok exPageDup) = [exSalesJob] := by
  refine ⟨fun jobs => ?_, fun url company_name now fetch => ?_, by decide, by decide⟩
  · rw [dedupAux_eq_keepFirst]
    congr 1
    simp [memStr]
  · by_cases hu : url = ""
    · simp [scrape_job_page, hu]
    · cases fetch with
      | error e => simp [scrape_job_page, hu]
      | ok page =>
        simp only [scrape_job_page, hu, if_false]
        exact List.length_take_le _ _

/-! ## C3 -/

/-- C3 counterexample: on `exPageMixed` the first catalog selector
`".opening"` matches an element (whose title the Role Filter rejects), yet
the scraper's output is the `"Sales Manager"` posting contributed by the
second selector — so the first selector yielding a matching element does not
win; the search continues past it. -/
theorem c3_counterexample_first_matching_selector :
    exPageMixed.select ".opening" = [mkEl "Software Engineer"] ∧
    should_exclude_role "Software Engineer" = true ∧
    scrape_job_page "https://x.example/jobs" "Co" "T" (Except.ok exPageMixed) =
      [exSalesJob] := by
  refine ⟨by decide, by decide, by decide⟩

/-- C3 amended: the selector loop stops at the first selector whose matched
elements yield at least one surviving posting after the per-element checks;
a selector all of whose matches are rejected contributes nothing and the next
selector is tried. -/
theorem c3_first_productive_selector_wins (url company_name now : String) (page : Page)
    (selector : String) (rest : List String) :
    scrapeSelectors url company_name now page (selector :: rest) [] =
      (if (selectorJobs url company_name now (page.select selector)).isEmpty then
        scrapeSelectors url company_name now page rest []
      else selectorJobs url company_name now (page.select selector)) := by
  simp only [scrapeSelectors, List.nil_append]
  split
  · rename_i h
    rw [List.isEmpty_iff.mp h]
  · rfl

/-! ## C4 -/

/-- C4 counterexample: in the structured parser, a second `"Acme"` company
line resets the entry built from the first one — parsing the full body leaves
`Acme` with an empty website although parsing the prefix (where `Acme`
occurred once) records the website URL; the free-form dashboard parser
behaves the same for `"Acme Robotics"`. -/
theorem c4_counterexample_overwrite :
    companyLookup (parse_funded_hiring_email "T" exBodyJT) "Acme" =
      some { website := "", jobs_page := "", date_added := "T" } ∧
    companyLookup (parse_funded_hiring_email "T" exBodyJTshort) "Acme" =
      some { website := "https://acme.example.com", jobs_page := "", date_added := "T" } ∧
    companyLookup (StreamlitApp.parse_funded_hiring_email "T" exBodyApp) "Acme Robotics" =
      some { website := "", jobs_page := "", date_added := "T" } ∧
    companyLookup (StreamlitApp.parse_funded_hiring_email "T" exBodyAppShort) "Acme Robotics" =
      some { website := "https://acme.example.com", jobs_page := "", date_added := "T" } := by
  refine ⟨by decide, by decide, by decide, by decide⟩

/-- C4 amended: when a line yields a company name, both parsers
unconditionally set that name's entry to a fresh blank record, so an entry
already present — whatever website or jobs-page URL it carries — is replaced. -/
theorem c4_company_line_resets_entry (now : String) (current_company : Option String)
    (prior : CompanyInfo) :
    companyLookup (parseLinesJT now ["Acme", "Funding Amount: $1M"] current_company
        [("Acme", prior)]) "Acme" =
      some { website := "", jobs_page := "", date_added := now } ∧
    companyLookup (StreamlitApp.parseLinesApp now ["Acme Robotics - builds robots"]
        current_company [("Acme Robotics", prior)]) "Acme Robotics" =
      some { website := "", jobs_page := "", date_added := now } :=
  ⟨rfl, rfl⟩

/-! ## C7 -/

/-- C7 counterexample: an element whose extracted href is the scheme-less
relative path `"jobs/123"` produces a posting whose URL is that raw relative
path, unresolved — it carries no scheme and is not absolute. -/
theorem c7_counterexample_relative_href :
    scrape_job_page "https://x.example/careers" "Co" "T" (Except.ok exPageRel) =
      [{ title := "Sales Manager", url := "jobs/123", company := "Co",
         scraped_date := "T" }] ∧
    isSubstring "://" "jobs/123" = false ∧
    strHasPre "http" "jobs/123" = false := by
  refine ⟨by decide, by decide, by decide⟩

/-- C7 amended: only extracted hrefs that begin with `'/'` are resolved
against the page URL (via `urljoin`); any other href — including scheme-less
relative paths — is emitted verbatim, in both the scraper and the
Careers-Page Finder. -/
theorem c7_only_rooted_hrefs_absolutized :
    (∀ (url company_name now : String) (e : Element) (job : Job),
      processElement url company_name now e = some job →
      job.url =
        if strHasPre "/" (jobUrlOf e) then urljoin url (jobUrlOf e) else jobUrlOf e) ∧
    (∀ (website_url candidate : String) (link : CAnchor),
      careersCandidate website_url link = some candidate →
      candidate =
        if strHasPre "/" link.href then urljoin website_url link.href else link.href) ∧
    urljoin "https://x.example/a/b" "/jobs/1" = "https://x.example/jobs/1" ∧
    find_careers_page "https://x.example" (Except.ok [exCAnchor]) =
      ["https://x.example/careers"] := by
  refine ⟨?_, ?_, by decide, by decide⟩
  · intro url company_name now e job h
    simp only [processElement] at h
    split at h
    · exact absurd h (by simp)
    · split at h
      · cases h; rfl
      · exact absurd h (by simp)
  · intro website_url candidate link h
    simp only [careersCandidate] at h
    split at h
    · cases h; rfl
    · exact absurd h (by simp)

theorem c7_only_rooted_hrefs_absolutized_witness :
    processElement "https://x.example/a" "Co" "T" exElRoot =
      some { title := "Sales Manager", url := "https://x.example/careers/1",
             company := "Co", scraped_date := "T" } ∧
    ({ title := "Sales Manager", url := "https://x.example/careers/1",
       company := "Co", scraped_date := "T" } : Job).url =
      (if strHasPre "/" (jobUrlOf exElRoot) then
        urljoin "https://x.example/a" (jobUrlOf exElRoot)
      else jobUrlOf exElRoot) :=
  ⟨by decide,
   c7_only_rooted_hrefs_absolutized.1 "https://x.example/a" "Co" "T" exElRoot _ (by decide)⟩
